import Mathlib

/-!
Verification development for the Figma token-compliance plugin
(`src/code.ts`, most evolved variant in the second half of the file).

The TypeScript source is shallowly embedded: JS numbers are modelled as
rationals, JS strings as `String`, host lookups (`figma.getStyleByIdAsync`,
`figma.variables.getVariableByIdAsync`, `figma.getNodeByIdAsync`) as explicit
environment functions returning `Option` (a `null` result and a thrown
exception are observationally identical in every use site embedded here:
both fall through to the same recovery path).
-/

/- ---------- basic value model ---------- -/

/-- An RGB color with channels in `[0,1]`, as handed out by the host API.
JS floats are modelled as rationals. -/
structure RGB where
  r : ℚ
  g : ℚ
  b : ℚ
deriving DecidableEq, Repr

/-- A value that may be the host's `figma.mixed` sentinel. -/
inductive MixedOr (α : Type) where
  | mixed
  | val (a : α)
deriving DecidableEq, Repr

/-- A style-id field value: the host reports either a string or `figma.mixed`.
A node that lacks the field altogether is modelled as `none` at the `Option`
level one layer up. -/
inductive StyleIdVal where
  | mixed
  | str (s : String)
deriving DecidableEq, Repr

/-- A font name: `{ family, style }`. -/
structure FontNm where
  family : String
  style : String
deriving DecidableEq, Repr

/-- A paint.  `ptype` is the source's `paint.type` string (`"SOLID"`,
`"GRADIENT_LINEAR"`, `"IMAGE"`, ...).  `boundColorVar` is `some id` exactly
when the source's `"boundVariables" in paint && paint.boundVariables &&
"color" in paint.boundVariables` probe succeeds (the bound variable id).
`visible = true` also covers the JS `undefined` case, which the source's
`p.visible === false` test treats the same way.  Gradient stops and opacity
are not carried: no embedded operation reads them. -/
structure Paint where
  ptype : String
  visible : Bool := true
  color : RGB := ⟨0, 0, 0⟩
  boundColorVar : Option String := none
deriving DecidableEq, Repr

/-- A style object returned by `figma.getStyleByIdAsync`:
`stype` is `style.type` (`"PAINT"`, `"TEXT"`, ...). -/
structure FigStyle where
  name : String
  stype : String
  fontName : Option FontNm := none
  fontSize : Option ℚ := none
  paints : List Paint := []
deriving DecidableEq, Repr

/-- The style registry: `figma.getStyleByIdAsync`.  `none` models both a
`null` result and a throw (observationally identical in the embedded code). -/
def StyleEnv : Type := String → Option FigStyle

/-- `isGradientPaint` (src/code.ts:797-804). -/
def isGradientPaint (p : Paint) : Bool :=
  p.ptype == "GRADIENT_LINEAR" || p.ptype == "GRADIENT_RADIAL" ||
  p.ptype == "GRADIENT_ANGULAR" || p.ptype == "GRADIENT_DIAMOND"

/-- `paint.type.startsWith("GRADIENT")` as used in `hasValidColorToken`. -/
def paintTypeIsGradientString (p : Paint) : Bool :=
  p.ptype.startsWith "GRADIENT"

/- ---------- scene nodes ---------- -/

/-- One entry of a node's `boundVariables.fills` / `boundVariables.strokes`
array: `v?.type` and `v?.id` as probed by the token collector. -/
structure VarAliasEntry where
  vtype : String
  vid : Option String
deriving DecidableEq, Repr

/-- Scalar part of a scene node.  `ntype` is the source's `node.type` string.
`fills`/`strokes` are `none` when the node lacks the capability (the
source's `"fills" in node && Array.isArray(node.fills)` probe fails), and
likewise for the style-id and text fields.  The carriers of `lineHeight`,
`letterSpacing` and the paragraph fields are immaterial to every claim (they
are only copied around verbatim); they are modelled as rationals, and
`textCase`/`textDecoration` as their host enum strings. -/
structure NodeCore where
  id : String
  ntype : String
  visible : Bool := true
  fills : Option (List Paint) := none
  strokes : Option (List Paint) := none
  fillStyleId : Option StyleIdVal := none
  strokeStyleId : Option StyleIdVal := none
  textStyleId : Option StyleIdVal := none
  fontName : MixedOr FontNm := .mixed
  fontSize : MixedOr ℚ := .mixed
  fontWeight : MixedOr ℚ := .mixed
  lineHeight : MixedOr ℚ := .mixed
  letterSpacing : MixedOr ℚ := .mixed
  textCase : MixedOr String := .mixed
  textDecoration : MixedOr String := .mixed
  paragraphSpacing : MixedOr ℚ := .mixed
  paragraphIndent : MixedOr ℚ := .mixed
  boundFillVars : List VarAliasEntry := []
  boundStrokeVars : List VarAliasEntry := []
deriving DecidableEq, Repr

/-- A scene node: scalar core plus children.  A node whose source object has
no `children` field behaves exactly like one with an empty list. -/
inductive SNode where
  | mk (core : NodeCore) (children : List SNode) : SNode

def SNode.core : SNode → NodeCore
  | .mk c _ => c

def SNode.children : SNode → List SNode
  | .mk _ cs => cs

/- ---------- rgbToHex ---------- -/

/-- JS `Math.round` for the non-negative values produced here
(round half away from zero equals floor of x + 1/2 for x ≥ 0;
channel values are in [0,1] so the argument is non-negative). -/
def jsRound (q : ℚ) : ℤ := ⌊q + 1/2⌋

/-- `n.toString(16)` followed by `.toUpperCase()`, for a natural number. -/
def natToHexUpper (n : ℕ) : String :=
  String.mk ((Nat.toDigits 16 n).map Char.toUpper)

/-- `.padStart(2, "0")`. -/
def padStart2 (s : String) : String :=
  if s.length < 2 then "0" ++ s else s

/-- One channel of `rgbToHex`: `Math.round(v * 255).toString(16).padStart(2, "0")`. -/
def toHexChannel (v : ℚ) : String :=
  padStart2 (natToHexUpper (jsRound (v * 255)).toNat)

/-- `rgbToHex` (src/code.ts:786-789): `#RRGGBB`, uppercase. -/
def rgbToHex (c : RGB) : String :=
  "#" ++ toHexChannel c.r ++ toHexChannel c.g ++ toHexChannel c.b

/- ---------- compliance predicate ---------- -/

/-- `VALID_TOKEN_PREFIXES` (src/code.ts:807-814). -/
def VALID_TOKEN_PREFIXES : List String :=
  ["Base Color/", "Contextual Color/", "Base/",
   "Surface Colors/", "Content Colors/", "Brand Colors/"]

/-- `VALID_TOKEN_PREFIXES.some(p => name.startsWith(p))`. -/
def startsWithValidCategory (name : String) : Bool :=
  VALID_TOKEN_PREFIXES.any (fun p => name.startsWith p)

/-- The style-resolution step shared by tiers 2 and 3 of
`hasValidColorToken`: given the raw style-id field, return `some b` when
the source would `return b` (id is a non-empty string and the lookup yields
a style), `none` when it falls through. -/
def tierStyleCheck (env : StyleEnv) (styleId : Option StyleIdVal) : Option Bool :=
  match styleId with
  | some (.str s) =>
      if s ≠ "" then (env s).map (fun st => startsWithValidCategory st.name)
      else none
  | _ => none

/-- `hasValidColorToken(node, paint, isStroke)` (src/code.ts:880-919), the
corrected three-argument variant.  Tier 1: a solid paint with a bound color
variable.  Tier 2 (only when `isStroke` is false): non-gradient paint, node
has a `fillStyleId` that is a non-empty string and resolves — return the
prefix check of the style's name.  Tier 3: the mirror for strokes.
Otherwise `false`. -/
def hasValidColorToken (env : StyleEnv) (node : NodeCore) (paint : Paint)
    (isStroke : Bool) : Bool :=
  if paint.ptype == "SOLID" && paint.boundColorVar.isSome then
    true
  else
    match (if !isStroke && !paintTypeIsGradientString paint then
             tierStyleCheck env node.fillStyleId
           else none) with
    | some b => b
    | none =>
        match (if isStroke && !paintTypeIsGradientString paint then
                 tierStyleCheck env node.strokeStyleId
               else none) with
        | some b => b
        | none => false

/-- `hasValidTextToken` (src/code.ts:922-927): a non-empty string-typed
`textStyleId` counts, nothing else does. -/
def hasValidTextToken (node : NodeCore) : Bool :=
  match node.textStyleId with
  | some (.str s) => s ≠ ""
  | _ => false

/- ---------- spec-side restatement for C1 ---------- -/

/-- Modelled from the spec's words for the refinement claim C1: the style
the relevant slot's binding resolves to, if any ("the node exposes a
fill-style binding (when isStroke is false) or a stroke-style binding (when
isStroke is true) that resolves to a style"). -/
def specSlotStyle (env : StyleEnv) (node : NodeCore) (isStroke : Bool) :
    Option FigStyle :=
  match (if isStroke then node.strokeStyleId else node.fillStyleId) with
  | some (.str s) => if s ≠ "" then env s else none
  | _ => none

/-- Modelled from the spec's words for the refinement claim C1: tiered
decision, first matching tier wins. -/
def specColorCompliant (env : StyleEnv) (node : NodeCore) (paint : Paint)
    (isStroke : Bool) : Bool :=
  if paint.ptype == "SOLID" && paint.boundColorVar.isSome then true
  else if !paintTypeIsGradientString paint then
    match specSlotStyle env node isStroke with
    | some st => startsWithValidCategory st.name
    | none => false
  else false

/- ---------- color analysis: occurrences, walk, grouping ---------- -/

/-- One entry of `analyzeColors`' map (src/code.ts:1135-1138); the source
also stores the live `node` reference, which is its `nodeId` here. -/
structure ColorOcc where
  nodeId : String
  paint : Paint
  isStroke : Bool
  label : String
  name : String
deriving DecidableEq, Repr

/-- The `name` computation of `processPaint` (src/code.ts:1158-1174): the
slot's style id is looked up only when truthy (the empty string is falsy;
the `figma.mixed` symbol is truthy but makes the lookup throw, caught into
the label fallback — observationally the same as a failed lookup). -/
def resolveOccName (env : StyleEnv) (styleId : Option StyleIdVal)
    (label : String) : String :=
  match styleId with
  | some (.str s) =>
      if s ≠ "" then
        match env s with
        | some st => st.name
        | none => label
      else label
  | some .mixed => label
  | none => label

/-- `processPaint` (src/code.ts:1140-1179): skip invisible paints and
image/video/pattern paints, skip compliant paints, label solids by hex and
gradients by the literal `"Gradiente"`, and resolve a display name. -/
def processPaint (env : StyleEnv) (node : NodeCore) (paint : Paint)
    (isStroke : Bool) : Option ColorOcc :=
  if paint.visible = false then none
  else if paint.ptype == "IMAGE" || paint.ptype == "VIDEO" ||
          paint.ptype == "PATTERN" then none
  else if hasValidColorToken env node paint isStroke then none
  else
    match (if paint.ptype == "SOLID" then some (rgbToHex paint.color)
           else if isGradientPaint paint then some "Gradiente"
           else none) with
    | none => none
    | some label =>
        let styleId : Option StyleIdVal :=
          if node.fillStyleId.isSome && !isStroke then node.fillStyleId
          else if node.strokeStyleId.isSome && isStroke then node.strokeStyleId
          else none
        some ⟨node.id, paint, isStroke, label, resolveOccName env styleId label⟩

mutual
/-- The recursive `walk` of `analyzeColors` (src/code.ts:1181-1201): a node
that is invisible while hidden elements are excluded is pruned with its
whole subtree; otherwise fills then strokes are processed, then the
children, in order. -/
def walkColors (env : StyleEnv) (showHidden : Bool) : SNode → List ColorOcc
  | .mk core children =>
    if !showHidden && !core.visible then []
    else
      (match core.fills with
       | some ps => ps.filterMap (fun p => processPaint env core p false)
       | none => []) ++
      (match core.strokes with
       | some ps => ps.filterMap (fun p => processPaint env core p true)
       | none => []) ++
      walkColorsList env showHidden children

/-- The `for (const c of node.children) await walk(c)` loop. -/
def walkColorsList (env : StyleEnv) (showHidden : Bool) :
    List SNode → List ColorOcc
  | [] => []
  | n :: ns => walkColors env showHidden n ++ walkColorsList env showHidden ns
end

/-- The grouping key of `analyzeColors` (src/code.ts:1176):
`` `${label}_${isStroke ? "stroke" : "fill"}` ``. -/
def colorOccKey (o : ColorOcc) : String :=
  o.label ++ "_" ++ (if o.isStroke then "stroke" else "fill")

/-- One `map.get(key)!.push(...)` / fresh-key insertion step of the JS `Map`,
keyed-group representation: insertion order of keys is preserved, a repeated
key appends to its group. -/
def addToGroups {α : Type} (key : α → String) :
    List (String × List α) → α → List (String × List α)
  | [], x => [(key x, [x])]
  | (k, xs) :: rest, x =>
      if key x = k then (k, xs ++ [x]) :: rest
      else (k, xs) :: addToGroups key rest x

/-- The JS `Map` built by pushing every occurrence in order. -/
def groupByKey {α : Type} (key : α → String) (xs : List α) :
    List (String × List α) :=
  xs.foldl (addToGroups key) []

/-- The label of a finished group (src/code.ts:1208-1211 reads
`nodePaints[0].label`; groups are never empty, `""` is a dead default). -/
def groupLabel (g : String × List ColorOcc) : String :=
  match g.2 with
  | o :: _ => o.label
  | [] => ""

/-- `analyzeColors` (src/code.ts:1132-1213), up to the `postMessage`: walk
all frames in order, group by `(label, slot)` key, then repackage each map
entry as `{ label, nodePaints }`. -/
def analyzeColorsGroups (env : StyleEnv) (showHidden : Bool)
    (frames : List SNode) : List (String × List ColorOcc) :=
  (groupByKey colorOccKey (walkColorsList env showHidden frames)).map
    (fun g => (groupLabel g, g.2))

/- ---------- typography analysis ---------- -/

/-- JS `String.prototype.includes`. -/
def jsIncludes (s sub : String) : Bool := decide (sub.data <:+: s.data)

/-- `extractReadableWeight` (src/code.ts:842-856). -/
def extractReadableWeight (fontStyle : String) : String :=
  let styleLower := fontStyle.toLower
  if jsIncludes styleLower "thin" then "Thin"
  else if jsIncludes styleLower "extralight" || jsIncludes styleLower "extra light" then "ExtraLight"
  else if jsIncludes styleLower "light" && !jsIncludes styleLower "extralight" then "Light"
  else if jsIncludes styleLower "medium" then "Medium"
  else if jsIncludes styleLower "semibold" || jsIncludes styleLower "semi bold" then "SemiBold"
  else if jsIncludes styleLower "extrabold" || jsIncludes styleLower "extra bold" then "ExtraBold"
  else if jsIncludes styleLower "bold" && !jsIncludes styleLower "semibold" && !jsIncludes styleLower "extrabold" then "Bold"
  else if jsIncludes styleLower "black" || jsIncludes styleLower "heavy" then "Black"
  else if jsIncludes styleLower "regular" || jsIncludes styleLower "normal" then "Regular"
  else "Regular"

/-- The source's `CustomTextStyle` (src/code.ts:1282-1290).  The `.mixed`
constructor stands for the source's literal placeholder strings
(`"Mixed"`, `"AUTO"`, `"0"`); the numeric carrier is immaterial, the values
are only copied. -/
structure CustomTextStyle where
  fontFamily : String
  fontStyle : String
  readableWeight : String
  fontSize : MixedOr ℚ
  fontWeight : MixedOr ℚ
  lineHeight : MixedOr ℚ
  letterSpacing : MixedOr ℚ
deriving DecidableEq, Repr

/-- One entry of `analyzeTypography`'s map (src/code.ts:1219). -/
structure TypoOcc where
  nodeId : String
  style : CustomTextStyle
deriving DecidableEq, Repr

/-- `processTextNode` (src/code.ts:1221-1247). -/
def processTextNode (node : NodeCore) : Option TypoOcc :=
  if hasValidTextToken node then none
  else
    let fontName := match node.fontName with
      | .val f => f
      | .mixed => ⟨"Mixed", "Mixed"⟩
    some ⟨node.id,
      { fontFamily := fontName.family
        fontStyle := fontName.style
        readableWeight := extractReadableWeight fontName.style
        fontSize := node.fontSize
        fontWeight := node.fontWeight
        lineHeight := node.lineHeight
        letterSpacing := node.letterSpacing }⟩

mutual
/-- The recursive `walk` of `analyzeTypography` (src/code.ts:1249-1261). -/
def walkTypo (showHidden : Bool) : SNode → List TypoOcc
  | .mk core children =>
    if !showHidden && !core.visible then []
    else
      (if core.ntype == "TEXT" then (processTextNode core).toList else []) ++
      walkTypoList showHidden children

/-- The children loop of `analyzeTypography.walk`. -/
def walkTypoList (showHidden : Bool) : List SNode → List TypoOcc
  | [] => []
  | n :: ns => walkTypo showHidden n ++ walkTypoList showHidden ns
end

/-- The grouping key of `analyzeTypography` (src/code.ts:1243):
`` `${fontName.family}_${fontName.style}` ``. -/
def typoOccKey (o : TypoOcc) : String :=
  o.style.fontFamily ++ "_" ++ o.style.fontStyle

/-- `analyzeTypography` (src/code.ts:1216-1277), up to the `postMessage`. -/
def analyzeTypographyGroups (showHidden : Bool) (frames : List SNode) :
    List (String × List TypoOcc) :=
  groupByKey typoOccKey (walkTypoList showHidden frames)

/- ---------- typography distance and suggestion ranking ---------- -/

/-- The `source` shape of `calculateTextStyleDistance` (src/code.ts:858-860):
`fontFamily` is required; `fontSize`/`fontWeight` are optional and
`fontWeight` may be non-numeric (`none` covers both). -/
structure TextStyleSource where
  fontFamily : String
  fontSize : Option ℚ := none
  fontWeight : Option ℚ := none
deriving DecidableEq, Repr

/-- The `target` shape of `calculateTextStyleDistance` (src/code.ts:860):
every field optional.  Collected text tokens have no `fontWeight` field at
all, so for them the weight is always `none` (defaulting to 400 below). -/
structure TextStyleTarget where
  fontFamily : Option String := none
  fontSize : Option ℚ := none
  fontWeight : Option ℚ := none
deriving DecidableEq, Repr

/-- JS truthiness of an optional number (`undefined` and `0` are falsy). -/
def jsTruthyNum : Option ℚ → Bool
  | none => false
  | some q => q ≠ 0

/-- `calculateTextStyleDistance` (src/code.ts:858-877): +100 for a
different family (`undefined` differs from every string), + |Δsize| when
both sizes are truthy, + |Δweight|/100 with non-numeric weights read
as 400. -/
def calculateTextStyleDistance (source : TextStyleSource)
    (target : TextStyleTarget) : ℚ :=
  let dFam : ℚ := if some source.fontFamily ≠ target.fontFamily then 100 else 0
  let dSize : ℚ :=
    if jsTruthyNum source.fontSize && jsTruthyNum target.fontSize then
      |source.fontSize.getD 0 - target.fontSize.getD 0|
    else 0
  let sourceWeight : ℚ := match source.fontWeight with
    | some w => w
    | none => 400
  let targetWeight : ℚ := match target.fontWeight with
    | some w => w
    | none => 400
  dFam + dSize + |sourceWeight - targetWeight| / 100

/-- `tokens.sort((a, b) => distA - distB)` (src/code.ts:1117-1123),
modelled as a stable comparison sort by ascending distance (what the ES2019
`Array.prototype.sort` contract guarantees for this comparator). -/
def sortTokensByDistance (cur : TextStyleSource)
    (tokens : List TextStyleTarget) : List TextStyleTarget :=
  tokens.insertionSort
    (fun a b => calculateTextStyleDistance cur a ≤ calculateTextStyleDistance cur b)

/- ---------- token-inventory cache ---------- -/

/-- The module globals `cachedColorTokens`, `cachedTextTokens` and the
SINGLE shared `cachedPageId` (src/code.ts:754-756). -/
structure TokenCacheState (α β : Type) where
  cachedColorTokens : Option (List α) := none
  cachedTextTokens : Option (List β) := none
  cachedPageId : Option String := none
deriving DecidableEq, Repr

/-- The memoization wrapper of `collectAppliedColorTokens`
(src/code.ts:934-937 and 1041-1044): cache hit when the color cache is
non-null (an empty array is still truthy) and the shared `cachedPageId`
equals the current page's id; otherwise run the page scan — abstracted as
`compute`, a function of the current page — and store the result and the
shared tag. -/
def collectColorCached {α β : Type} (compute : String → List α)
    (pageId : String) (s : TokenCacheState α β) :
    List α × TokenCacheState α β :=
  let recompute :=
    let result := compute pageId
    (result,
     { s with cachedColorTokens := some result, cachedPageId := some pageId })
  match s.cachedColorTokens with
  | some cached => if s.cachedPageId = some pageId then (cached, s) else recompute
  | none => recompute

/-- The memoization wrapper of `collectAppliedTextTokens`
(src/code.ts:1053-1056 and 1125-1127), sharing `cachedPageId` with the
color cache. -/
def collectTextCached {α β : Type} (compute : String → List β)
    (pageId : String) (s : TokenCacheState α β) :
    List β × TokenCacheState α β :=
  let recompute :=
    let result := compute pageId
    (result,
     { s with cachedTextTokens := some result, cachedPageId := some pageId })
  match s.cachedTextTokens with
  | some cached => if s.cachedPageId = some pageId then (cached, s) else recompute
  | none => recompute

/- ---------- original-state snapshots ---------- -/

/-- `OriginalNodeState` (src/code.ts:763-778); a `none` field was never
assigned by the capturing handler. -/
structure OriginalNodeState where
  fillStyleId : Option StyleIdVal := none
  strokeStyleId : Option StyleIdVal := none
  textStyleId : Option StyleIdVal := none
  fills : Option (List Paint) := none
  strokes : Option (List Paint) := none
  fontName : Option (MixedOr FontNm) := none
  fontSize : Option (MixedOr ℚ) := none
  lineHeight : Option (MixedOr ℚ) := none
  letterSpacing : Option (MixedOr ℚ) := none
  textCase : Option (MixedOr String) := none
  textDecoration : Option (MixedOr String) := none
  paragraphSpacing : Option (MixedOr ℚ) := none
  paragraphIndent : Option (MixedOr ℚ) := none
deriving DecidableEq, Repr

/-- The per-node capture of the `save-original-state` handler
(src/code.ts:1456-1483): color fields are copied when the capabilities
exist (`Option` to `Option`, `JSON` deep copy is value semantics here); for
a text node the typographic fields are copied after the font load — a load
failure throws before any text field is assigned, leaving them unset. -/
def captureOriginalState (fontLoads : FontNm → Bool) (node : NodeCore) :
    OriginalNodeState :=
  let base : OriginalNodeState :=
    { fillStyleId := node.fillStyleId, strokeStyleId := node.strokeStyleId,
      fills := node.fills, strokes := node.strokes }
  if node.ntype == "TEXT" then
    let loadOk := match node.fontName with
      | .val f => fontLoads f
      | .mixed => true
    if loadOk then
      { base with
        textStyleId := node.textStyleId
        fontName := some node.fontName
        fontSize := some node.fontSize
        lineHeight := some node.lineHeight
        letterSpacing := some node.letterSpacing
        textCase := some node.textCase
        textDecoration := some node.textDecoration
        paragraphSpacing := some node.paragraphSpacing
        paragraphIndent := some node.paragraphIndent }
    else base
  else base

/-- The `save-original-state` handler (src/code.ts:1448-1486): for every id
that resolves, capture the node's CURRENT state and `Map.set` it —
unconditionally, with no presence check. -/
def saveOriginalState (fontLoads : FontNm → Bool)
    (doc : String → Option NodeCore)
    (states : String → Option OriginalNodeState) (nodeIds : List String) :
    String → Option OriginalNodeState :=
  nodeIds.foldl (fun m nodeId =>
    match doc nodeId with
    | none => m
    | some node =>
        fun k => if k = nodeId
                 then some (captureOriginalState fontLoads node)
                 else m k) states

/- ---------- selection-change suppression ---------- -/

/-- Messages to the UI peer (the constructors the embedded handlers use). -/
inductive UIMsg where
  | emptyAll
  | selectionChanged
  | frameChanged
  | updateDetail (nodeId styleName styleId : String)
  | tokenAppliedSuccess (styleName styleId : String)
  | tokenRemovedSuccess
deriving DecidableEq, Repr

/-- The state the suppression gate touches. -/
structure SelState where
  ignoringSelectionChange : Bool
  rootFrameIds : List String
deriving DecidableEq, Repr

/-- The evolved `selectionchange` handler's suppression gate
(src/code.ts:1323-1329): while the flag is set the event returns
immediately — no messages, no analysis, and the flag is NOT cleared here
(`select-node` clears it itself after a 50 ms delay,
src/code.ts:1507-1511).  The container resolution and re-analysis performed
for unsuppressed events is abstracted as `normal`. -/
def handleSelectionChangeV2 (normal : SelState → SelState × List UIMsg)
    (s : SelState) : SelState × List UIMsg :=
  if s.ignoringSelectionChange then (s, [])
  else normal s

/-- The first variant's `selectionchange` gate (src/code.ts:503-509): the
swallowed event clears the flag itself, so exactly one event is swallowed. -/
def handleSelectionChangeV1 (normal : SelState → SelState × List UIMsg)
    (s : SelState) : SelState × List UIMsg :=
  if s.ignoringSelectionChange then
    ({ s with ignoringSelectionChange := false }, [])
  else normal s

/- ---------- token inventory collectors ---------- -/

/-- A color variable as returned by
`figma.variables.getVariableByIdAsync`. -/
structure FigVariable where
  name : String
  resolvedType : String
deriving DecidableEq, Repr

/-- The variable registry; `none` covers null and throw. -/
def VarEnv : Type := String → Option FigVariable

/-- A collected color token (src/code.ts:932): `{ name, hex, styleId? }`. -/
structure ColorToken where
  name : String
  hex : String
  styleId : Option String
deriving DecidableEq, Repr

/-- A collected typography token (src/code.ts:1051):
`{ name, styleId, fontFamily?, fontStyle?, fontSize? }`. -/
structure TextToken where
  name : String
  styleId : String
  fontFamily : Option String
  fontStyle : Option String
  fontSize : Option ℚ
deriving DecidableEq, Repr

/-- A collected text token viewed as a distance target: it has no
`fontWeight` field, so the weight reads as `undefined` (→ default 400). -/
def TextToken.toTarget (t : TextToken) : TextStyleTarget :=
  ⟨t.fontFamily, t.fontSize, none⟩

/-- JS `Set.add` on the insertion-ordered element list. -/
def setAdd (s : List String) (x : String) : List String :=
  if x ∈ s then s else s ++ [x]

/-- JS `Map.has` on an insertion-ordered association list. -/
def assocHas {α : Type} (m : List (String × α)) (k : String) : Bool :=
  m.any (fun kv => kv.1 = k)

/-- JS `Map.set`: replace in place, else append. -/
def assocSet {α : Type} (m : List (String × α)) (k : String) (v : α) :
    List (String × α) :=
  if assocHas m k then m.map (fun kv => if kv.1 = k then (k, v) else kv)
  else m ++ [(k, v)]

/-- `removeTokenPrefix` (src/code.ts:817-831), renamed here: strip the
books-emoji marker (the regex `\s+` is modelled as the single space the
marker takes in practice), then strip every allow-listed category prefix in
order. -/
def removeTokenCategory (tokenName : String) : String :=
  let r := if tokenName.startsWith "📚 " then tokenName.drop 2 else tokenName
  VALID_TOKEN_PREFIXES.foldl
    (fun acc p => if acc.startsWith p then acc.drop p.length else acc) r

/-- `isValidTokenName` (src/code.ts:834-839). -/
def isValidTokenName (name : String) : Bool :=
  let trimmed := name.trim
  if trimmed.startsWith "_" || trimmed.startsWith "/" then false
  else if trimmed.length = 0 then false
  else true

/-- One `boundVariables` array of the color collector
(src/code.ts:969-1009): resolve each well-formed alias, keep COLOR
variables with presentable names, preview the hex from the node's first
solid paint in the same slot (black fallback), key by `var_` + id, first
occurrence wins (`!tokenSet.has`). -/
def processVarEntries (varEnv : VarEnv) (paints : List Paint)
    (entries : List VarAliasEntry) (tokenSet : List (String × ColorToken)) :
    List (String × ColorToken) :=
  entries.foldl (fun ts v =>
    match v.vid with
    | some vid =>
        if v.vtype == "VARIABLE_ALIAS" then
          match varEnv vid with
          | some vbl =>
              if vbl.resolvedType == "COLOR" then
                let varKey := "var_" ++ vid
                let strippedName := removeTokenCategory vbl.name
                if !assocHas ts varKey && isValidTokenName strippedName then
                  let solidFill := paints.find? (fun f => f.ptype == "SOLID")
                  let hex := match solidFill with
                    | some f => rgbToHex f.color
                    | none => "#000000"
                  assocSet ts varKey ⟨strippedName, hex, some vid⟩
                else ts
              else ts
          | none => ts
        else ts
    | none => ts) tokenSet

/-- Accumulator of the color collector's page walk: the `styleIdsInFile`
set and the variable entries of `tokenSet`. -/
structure ColorCollectAcc where
  styleIds : List String
  tokenSet : List (String × ColorToken)
deriving DecidableEq, Repr

mutual
/-- `collectStyleIds` of the evolved `collectAppliedColorTokens`
(src/code.ts:946-1017): gather non-empty string fill/stroke style ids and
bound color variables, then recurse into the children (page-level nodes are
the roots, so the non-scene shortcut is the entry point below). -/
def collectColorAccNode (varEnv : VarEnv) (n : SNode) (acc : ColorCollectAcc) :
    ColorCollectAcc :=
  match n with
  | .mk core children =>
      let ids1 := match core.fillStyleId with
        | some (.str s) => if s ≠ "" then setAdd acc.styleIds s else acc.styleIds
        | _ => acc.styleIds
      let ids2 := match core.strokeStyleId with
        | some (.str s) => if s ≠ "" then setAdd ids1 s else ids1
        | _ => ids1
      let ts1 := processVarEntries varEnv (core.fills.getD [])
        core.boundFillVars acc.tokenSet
      let ts2 := processVarEntries varEnv (core.strokes.getD [])
        core.boundStrokeVars ts1
      collectColorAccList varEnv children ⟨ids2, ts2⟩

/-- The children loop of `collectStyleIds`. -/
def collectColorAccList (varEnv : VarEnv) (ns : List SNode)
    (acc : ColorCollectAcc) : ColorCollectAcc :=
  match ns with
  | [] => acc
  | n :: rest => collectColorAccList varEnv rest (collectColorAccNode varEnv n acc)
end

/-- The style-resolution loop of the color collector
(src/code.ts:1025-1039): PAINT styles whose first paint is solid become
tokens keyed by their style id. -/
def addStyleTokens (env : StyleEnv) (styleIds : List String)
    (tokenSet : List (String × ColorToken)) : List (String × ColorToken) :=
  styleIds.foldl (fun ts styleId =>
    match env styleId with
    | some style =>
        if style.stype == "PAINT" then
          match style.paints with
          | firstPaint :: _ =>
              if firstPaint.ptype == "SOLID" then
                assocSet ts styleId
                  ⟨removeTokenCategory style.name, rgbToHex firstPaint.color,
                   some styleId⟩
              else ts
          | [] => ts
        else ts
    | none => ts) tokenSet

/-- The page-scan body of the evolved `collectAppliedColorTokens`
(src/code.ts:939-1041), i.e. everything between the cache check and the
cache store.  Note: there is NO fallback to locally defined paint styles
anywhere in it — an empty scan yields an empty list. -/
def collectAppliedColorTokensCompute (styleEnv : StyleEnv) (varEnv : VarEnv)
    (page : List SNode) : List ColorToken :=
  let acc := collectColorAccList varEnv page ⟨[], []⟩
  (addStyleTokens styleEnv acc.styleIds acc.tokenSet).map Prod.snd

mutual
/-- `collectStyleIds` of `collectAppliedTextTokens` (src/code.ts:1061-1082):
non-empty string text-style ids of TEXT nodes. -/
def collectTextIdsNode (n : SNode) (ids : List String) : List String :=
  match n with
  | .mk core children =>
      let ids1 :=
        if core.ntype == "TEXT" then
          match core.textStyleId with
          | some (.str s) => if s ≠ "" then setAdd ids s else ids
          | _ => ids
        else ids
      collectTextIdsList children ids1

/-- The children loop of the text-id walk. -/
def collectTextIdsList (ns : List SNode) (ids : List String) : List String :=
  match ns with
  | [] => ids
  | n :: rest => collectTextIdsList rest (collectTextIdsNode n ids)
end

/-- One iteration of the text collector's style-resolution loop
(src/code.ts:1093-1113): a TEXT style with a well-formed font name whose
font loads becomes a token keyed by `name_styleId`; a font-load failure
drops the style. -/
def addTextTokensStep (env : StyleEnv) (fontLoads : FontNm → Bool)
    (ts : List (String × TextToken)) (styleId : String) :
    List (String × TextToken) :=
  match env styleId with
  | some style =>
      if style.stype == "TEXT" then
        match style.fontName with
        | some fn =>
            if fontLoads fn then
              assocSet ts (style.name ++ "_" ++ styleId)
                ⟨style.name, styleId, some fn.family, some fn.style,
                 style.fontSize⟩
            else ts
        | none => ts
      else ts
  | none => ts

/-- The whole style-resolution loop of the text collector. -/
def addTextTokens (env : StyleEnv) (fontLoads : FontNm → Bool)
    (styleIds : List String) (tokenSet : List (String × TextToken)) :
    List (String × TextToken) :=
  styleIds.foldl (addTextTokensStep env fontLoads) tokenSet

/-- The compute body of the evolved `collectAppliedTextTokens`
(src/code.ts:1058-1123): walk the page for applied text-style ids, FALL
BACK to all local text styles when zero were found (src/code.ts:1086-1091),
resolve and font-load them, and rank by distance when a current profile is
supplied.  `localTextStyles` pairs each local style's id with the style. -/
def collectAppliedTextTokensCompute (styleEnv : StyleEnv)
    (fontLoads : FontNm → Bool) (localTextStyles : List (String × FigStyle))
    (page : List SNode) (currentStyle : Option TextStyleSource) :
    List TextToken :=
  let ids := collectTextIdsList page []
  let ids :=
    if ids.isEmpty then localTextStyles.foldl (fun acc st => setAdd acc st.1) ids
    else ids
  let tokens := (addTextTokens styleEnv fontLoads ids []).map Prod.snd
  match currentStyle with
  | some cs =>
      tokens.insertionSort (fun a b =>
        calculateTextStyleDistance cs a.toTarget ≤
          calculateTextStyleDistance cs b.toTarget)
  | none => tokens

/- ---------- apply-token (variable path) ---------- -/

/-- `array.map((x, i) => ...)`, with the JS index made explicit. -/
def jsMapIndexedFrom (f : Nat → Paint → Paint) : Nat → List Paint → List Paint
  | _, [] => []
  | i, p :: rest => f i p :: jsMapIndexedFrom f (i + 1) rest

/-- `paints.map((p, i) => ...)`. -/
def jsMapIndexed (f : Nat → Paint → Paint) (ps : List Paint) : List Paint :=
  jsMapIndexedFrom f 0 ps

/-- `figma.variables.setBoundVariableForPaint(paint, "color", variable)`:
the returned paint carries a bound color variable. -/
def setBoundVariableForPaint (p : Paint) (varId : String) : Paint :=
  { p with boundColorVar := some varId }

/-- The variable branch of `apply-token` for one node
(src/code.ts:1654-1665): rewrite index 0 of the relevant paint list when it
is a non-empty array, leave every other index and the other slot alone; an
absent or empty list leaves the node untouched. -/
def applyColorVariableToNode (varId : String) (isStroke : Bool)
    (node : NodeCore) : NodeCore :=
  if !isStroke then
    match node.fills with
    | some fills =>
        if fills.length > 0 then
          { node with fills := some (jsMapIndexed (fun i fill =>
              if i = 0 then setBoundVariableForPaint fill varId else fill)
              fills) }
        else node
    | none => node
  else
    match node.strokes with
    | some strokes =>
        if strokes.length > 0 then
          { node with strokes := some (jsMapIndexed (fun i stroke =>
              if i = 0 then setBoundVariableForPaint stroke varId else stroke)
              strokes) }
        else node
    | none => node

/-- One node of the `apply-token` handler specialised to a token id that
resolved to a COLOR variable (src/code.ts:1641-1677; `apply-token-multiple`
at 1598-1633 behaves identically on this path): unresolvable ids are
skipped, each resolved node gets the first-paint rewrite and an
`update-detail` message. -/
def applyTokenVariableStep (varId varName : String) (isStroke : Bool)
    (st : (String → Option NodeCore) × List UIMsg) (nid : String) :
    (String → Option NodeCore) × List UIMsg :=
  match st.1 nid with
  | none => st
  | some node =>
      let nodeAfter := applyColorVariableToNode varId isStroke node
      (fun k => if k = nid then some nodeAfter else st.1 k,
       st.2 ++ [UIMsg.updateDetail nid (removeTokenCategory varName) varId])

/-- The whole batch: fold the per-node step over the requested ids, then
post `token-applied-success`. -/
def applyTokenVariableBatch (varId varName : String) (isStroke : Bool)
    (doc : String → Option NodeCore) (nodeIds : List String) :
    (String → Option NodeCore) × List UIMsg :=
  let res := nodeIds.foldl (applyTokenVariableStep varId varName isStroke)
    (doc, ([] : List UIMsg))
  (res.1,
   res.2 ++ [UIMsg.tokenAppliedSuccess (removeTokenCategory varName) varId])

/- ---------- remove-text-token ---------- -/

/-- The skip guard of `remove-text-token` (src/code.ts:1871):
`!node.textStyleId || node.textStyleId === ""` — an absent binding or the
empty string makes the handler `continue`; the truthy `figma.mixed` symbol
does not. -/
def textBindingEmptyOrAbsent (node : NodeCore) : Bool :=
  match node.textStyleId with
  | none => true
  | some (.str s) => s = ""
  | some .mixed => false

/-- One iteration of the `remove-text-token` loop (src/code.ts:1866-1931).
The restoration performed for a node that passes the guard (lines
1873-1926, driven by the stored `OriginalNodeState` and font loading) is
abstracted as `restore`; guarded nodes never reach it. -/
def removeTextTokenStep (restore : String → NodeCore → NodeCore)
    (d : String → Option NodeCore) (nid : String) : String → Option NodeCore :=
  match d nid with
  | none => d
  | some node =>
      if node.ntype == "TEXT" then
        if textBindingEmptyOrAbsent node then d
        else fun k => if k = nid then some (restore nid node) else d k
      else d

/-- The whole batch: fold the per-node step, then post
`token-removed-success` unconditionally. -/
def removeTextTokenBatch (restore : String → NodeCore → NodeCore)
    (doc : String → Option NodeCore) (nodeIds : List String) :
    (String → Option NodeCore) × List UIMsg :=
  (nodeIds.foldl (removeTextTokenStep restore) doc,
   [UIMsg.tokenRemovedSuccess])

/- ---------- concrete fixtures for witnesses and counterexamples ---------- -/

/-- A document with no resolvable styles. -/
def emptyStyleEnv : StyleEnv := fun _ => none

/-- A raw solid red paint, bound to nothing. -/
def redPaint : Paint := { ptype := "SOLID", color := ⟨1, 0, 0⟩ }

def nodeACore : NodeCore := { id := "A", ntype := "RECTANGLE", fills := some [redPaint] }

def nodeBCore : NodeCore := { id := "B", ntype := "RECTANGLE", fills := some [redPaint] }

def nodeCCore : NodeCore := { id := "C", ntype := "RECTANGLE", strokes := some [redPaint] }

def frameNode : SNode :=
  .mk { id := "F", ntype := "FRAME" } [.mk nodeACore [], .mk nodeBCore [], .mk nodeCCore []]

def hiddenCore : NodeCore :=
  { id := "H", ntype := "RECTANGLE", visible := false, fills := some [redPaint] }

def hiddenNode : SNode := .mk hiddenCore []

/-- The occurrence `analyzeColors` produces for the red fill of node `"A"`. -/
def occA : ColorOcc := ⟨"A", redPaint, false, "#FF0000", "#FF0000"⟩

def occB : ColorOcc := ⟨"B", redPaint, false, "#FF0000", "#FF0000"⟩

def occC : ColorOcc := ⟨"C", redPaint, true, "#FF0000", "#FF0000"⟩

def occH : ColorOcc := ⟨"H", redPaint, false, "#FF0000", "#FF0000"⟩

/-- A compute function whose result records which page it scanned. -/
def pageMarkerCompute : String → List String := fun pageId => [pageId]

/-- A cache state whose color list was computed for page `"A"`. -/
def cacheStateA : TokenCacheState String String :=
  { cachedColorTokens := some ["A"], cachedPageId := some "A" }

def interProfile : TextStyleSource := ⟨"Inter", some 16, some 400⟩

def tokInter16 : TextStyleTarget := ⟨some "Inter", some 16, some 400⟩

def tokInter24 : TextStyleTarget := ⟨some "Inter", some 24, some 700⟩

def tokRoboto16 : TextStyleTarget := ⟨some "Roboto", some 16, some 400⟩

/-- The node `"N"` before a token was applied to it. -/
def nodeBeforeEdit : NodeCore :=
  { id := "N", ntype := "RECTANGLE", fillStyleId := some (.str "styleBefore") }

/-- The same node after an edit changed its fill binding. -/
def nodeAfterEdit : NodeCore :=
  { id := "N", ntype := "RECTANGLE", fillStyleId := some (.str "styleAfter") }

def docBeforeEdit : String → Option NodeCore :=
  fun nid => if nid = "N" then some nodeBeforeEdit else none

def docAfterEdit : String → Option NodeCore :=
  fun nid => if nid = "N" then some nodeAfterEdit else none

def allFontsLoad : FontNm → Bool := fun _ => true

/-- A concrete unsuppressed selection-change reaction. -/
def normalProcessing : SelState → SelState × List UIMsg :=
  fun s => ({ s with rootFrameIds := ["F"] }, [UIMsg.selectionChanged])

def localRedStyle : FigStyle :=
  { name := "Base/Red", stype := "PAINT", paints := [redPaint] }

/-- A locally defined paint style the color collector never consults. -/
def localPaintStylesFix : List (String × FigStyle) := [("S1", localRedStyle)]

def paintStyleEnvFix : StyleEnv :=
  fun styleId => if styleId = "S1" then some localRedStyle else none

def localTextStyleFix : FigStyle :=
  { name := "Body", stype := "TEXT", fontName := some ⟨"Inter", "Regular"⟩,
    fontSize := some 16 }

def localTextStylesFix : List (String × FigStyle) := [("T1", localTextStyleFix)]

def textStyleEnvFix : StyleEnv :=
  fun styleId => if styleId = "T1" then some localTextStyleFix else none

/-- A second paint, distinguishable from `redPaint`. -/
def blackPaint : Paint := { ptype := "SOLID", color := ⟨0, 0, 0⟩ }

def nodeTwoPaints : NodeCore :=
  { id := "P", ntype := "RECTANGLE", fills := some [redPaint, blackPaint] }

def nodeEmptyFills : NodeCore :=
  { id := "E", ntype := "RECTANGLE", fills := some [] }

def docApply : String → Option NodeCore :=
  fun nid => if nid = "P" then some nodeTwoPaints
             else if nid = "E" then some nodeEmptyFills else none

/-- A text node whose text-style binding is the empty string. -/
def emptyBindingTextNode : NodeCore :=
  { id := "T", ntype := "TEXT", textStyleId := some (.str ""),
    fontName := .val ⟨"Inter", "Regular"⟩ }

def docRemove : String → Option NodeCore :=
  fun nid => if nid = "T" then some emptyBindingTextNode else none

/-- An arbitrary concrete restoration function (its behavior is irrelevant
to skipped nodes). -/
def restoreFix : String → NodeCore → NodeCore :=
  fun _ node => { node with fontName := .mixed }

/- ---------- theorems ---------- -/

/-- The tier-2/3 body followed by the final `return false`, rewritten to the
spec's "resolves to a style" shape. -/
theorem tierFallback_eq (env : StyleEnv) (sid : Option StyleIdVal) :
    (match tierStyleCheck env sid with
     | some b => b
     | none => false) =
      (match (match sid with
              | some (StyleIdVal.str s) => if s ≠ "" then env s else none
              | _ => none) with
       | some st => startsWithValidCategory st.name
       | none => false) := by
  rcases sid with _ | (_ | s)
  · rfl
  · rfl
  · by_cases hs : s = ""
    · subst hs; rfl
    · simp only [tierStyleCheck, ne_eq, hs, not_false_iff, if_true]
      cases env s <;> rfl

/-- **C1.** `hasValidColorToken` decides exactly by the spec's tiers: a solid
paint with a bound color variable is compliant unconditionally; otherwise a
non-gradient paint is compliant iff the slot selected by `isStroke` carries a
non-empty string style binding that resolves to a style whose name starts
with one of the six allow-listed prefixes; otherwise it is non-compliant. -/
theorem hasValidColorToken_spec (env : StyleEnv) (node : NodeCore)
    (paint : Paint) (isStroke : Bool) :
    hasValidColorToken env node paint isStroke =
      specColorCompliant env node paint isStroke := by
  unfold hasValidColorToken specColorCompliant
  by_cases h1 : (paint.ptype == "SOLID" && paint.boundColorVar.isSome) = true
  · rw [if_pos h1, if_pos h1]
  · rw [if_neg h1, if_neg h1]
    cases hgb : paintTypeIsGradientString paint
    · cases isStroke
      · exact tierFallback_eq env node.fillStyleId
      · exact tierFallback_eq env node.strokeStyleId
    · cases isStroke <;> rfl

/- ---------- string and grouping infrastructure ---------- -/

theorem string_data_append (a b : String) : (a ++ b).data = a.data ++ b.data := by
  cases a; cases b; rfl

/-- Two appends with non-empty suffixes of different last characters differ. -/
theorem append_ne_of_getLast_ne {l1 l2 s1 s2 : List Char}
    (h1 : s1 ≠ []) (h2 : s2 ≠ []) (h3 : s1.getLast? ≠ s2.getLast?) :
    l1 ++ s1 ≠ l2 ++ s2 := by
  intro he
  apply h3
  rw [← List.getLast?_append_of_ne_nil l1 h1, he,
    List.getLast?_append_of_ne_nil l2 h2]

/-- Equal grouping keys force equal slots and equal labels. -/
theorem colorOccKey_inj {o1 o2 : ColorOcc} (hk : colorOccKey o1 = colorOccKey o2) :
    o1.isStroke = o2.isStroke ∧ o1.label = o2.label := by
  unfold colorOccKey at hk
  have hd := congrArg String.data hk
  rw [string_data_append, string_data_append, string_data_append, string_data_append]
    at hd
  rw [List.append_assoc, List.append_assoc] at hd
  cases hb1 : o1.isStroke <;> cases hb2 : o2.isStroke <;> rw [hb1, hb2] at hd
  · refine ⟨rfl, ?_⟩
    have := List.append_cancel_right hd
    exact congrArg String.mk this
  · exact absurd hd (append_ne_of_getLast_ne (by decide) (by decide) (by decide))
  · exact absurd hd (append_ne_of_getLast_ne (by decide) (by decide) (by decide))
  · refine ⟨rfl, ?_⟩
    have := List.append_cancel_right hd
    exact congrArg String.mk this

/-- Every member of every group produced so far carries the group's key. -/
def GroupsWF {α : Type} (key : α → String) (gs : List (String × List α)) : Prop :=
  ∀ g ∈ gs, ∀ x ∈ g.2, key x = g.1

theorem addToGroups_wf {α : Type} {key : α → String} {gs : List (String × List α)}
    (hwf : GroupsWF key gs) (x : α) : GroupsWF key (addToGroups key gs x) := by
  induction gs with
  | nil =>
      intro g hg y hy
      simp only [addToGroups, List.mem_singleton] at hg
      subst hg
      simp only [List.mem_singleton] at hy
      subst hy
      rfl
  | cons g0 rest ih =>
      obtain ⟨k, xs⟩ := g0
      by_cases hkey : key x = k
      · intro g hg y hy
        simp only [addToGroups, if_pos hkey, List.mem_cons] at hg
        rcases hg with hg | hg
        · subst hg
          simp only [List.mem_append, List.mem_singleton] at hy
          rcases hy with hy | hy
          · exact hwf (k, xs) (List.mem_cons_self _ _) y hy
          · subst hy; exact hkey
        · exact hwf g (List.mem_cons_of_mem _ hg) y hy
      · intro g hg y hy
        simp only [addToGroups, if_neg hkey, List.mem_cons] at hg
        rcases hg with hg | hg
        · subst hg
          exact hwf (k, xs) (List.mem_cons_self _ _) y hy
        · have hrest : GroupsWF key rest := fun g' hg' y' hy' =>
            hwf g' (List.mem_cons_of_mem _ hg') y' hy'
          exact ih hrest g hg y hy

/-- Keys after one insertion: unchanged for an existing key, the new key
appended otherwise. -/
theorem addToGroups_keys {α : Type} (key : α → String)
    (gs : List (String × List α)) (x : α) :
    (addToGroups key gs x).map Prod.fst =
      (if key x ∈ gs.map Prod.fst then gs.map Prod.fst
       else gs.map Prod.fst ++ [key x]) := by
  induction gs with
  | nil => simp [addToGroups]
  | cons g0 rest ih =>
      obtain ⟨k, xs⟩ := g0
      by_cases hkey : key x = k
      · simp [addToGroups, if_pos hkey, hkey]
      · simp only [addToGroups, if_neg hkey, List.map_cons, ih]
        by_cases hmem : key x ∈ rest.map Prod.fst
        · simp [hmem, hkey]
        · simp [hmem, hkey]

theorem addToGroups_keys_nodup {α : Type} {key : α → String}
    {gs : List (String × List α)} (hnd : (gs.map Prod.fst).Nodup) (x : α) :
    ((addToGroups key gs x).map Prod.fst).Nodup := by
  rw [addToGroups_keys]
  by_cases hmem : key x ∈ gs.map Prod.fst
  · simpa [hmem] using hnd
  · simp only [hmem, if_false]
    simp [List.nodup_append, hnd, hmem]

/-- The inserted element lands in a group keyed by its own key. -/
theorem addToGroups_mem_self {α : Type} (key : α → String)
    (gs : List (String × List α)) (x : α) :
    ∃ g ∈ addToGroups key gs x, g.1 = key x ∧ x ∈ g.2 := by
  induction gs with
  | nil => exact ⟨(key x, [x]), List.mem_singleton_self _, rfl, List.mem_singleton_self _⟩
  | cons g0 rest ih =>
      obtain ⟨k, xs⟩ := g0
      by_cases hkey : key x = k
      · refine ⟨(k, xs ++ [x]), ?_, hkey.symm, ?_⟩
        · simp [addToGroups, if_pos hkey]
        · simp
      · obtain ⟨g, hg, hgk, hgx⟩ := ih
        exact ⟨g, by simp [addToGroups, if_neg hkey, hg], hgk, hgx⟩

/-- Insertion never loses a previously grouped element, nor changes its key. -/
theorem addToGroups_mem_mono {α : Type} {key : α → String}
    {gs : List (String × List α)} {k : String} {y : α}
    (h : ∃ g ∈ gs, g.1 = k ∧ y ∈ g.2) (x : α) :
    ∃ g ∈ addToGroups key gs x, g.1 = k ∧ y ∈ g.2 := by
  induction gs with
  | nil => simp at h
  | cons g0 rest ih =>
      obtain ⟨k0, xs⟩ := g0
      obtain ⟨g, hg, hgk, hgy⟩ := h
      rcases List.mem_cons.mp hg with hg | hg
      · subst hg
        by_cases hkey : key x = k0
        · refine ⟨(k0, xs ++ [x]), ?_, hgk, ?_⟩
          · simp [addToGroups, if_pos hkey]
          · simp only at hgy
            simp [hgy]
        · exact ⟨(k0, xs), by simp [addToGroups, if_neg hkey], hgk, hgy⟩
      · by_cases hkey : key x = k0
        · exact ⟨g, by simp [addToGroups, if_pos hkey, hg], hgk, hgy⟩
        · obtain ⟨g', hg', hgk', hgy'⟩ := ih ⟨g, hg, hgk, hgy⟩
          exact ⟨g', by simp [addToGroups, if_neg hkey, hg'], hgk', hgy'⟩

theorem foldl_addToGroups_wf {α : Type} {key : α → String} (xs : List α) :
    ∀ gs, GroupsWF key gs → GroupsWF key (xs.foldl (addToGroups key) gs) := by
  induction xs with
  | nil => intro gs h; exact h
  | cons a as ih => intro gs h; exact ih _ (addToGroups_wf h a)

theorem foldl_addToGroups_nodup {α : Type} {key : α → String} (xs : List α) :
    ∀ gs, (gs.map Prod.fst).Nodup →
      ((xs.foldl (addToGroups key) gs).map Prod.fst).Nodup := by
  induction xs with
  | nil => intro gs h; exact h
  | cons a as ih => intro gs h; exact ih _ (addToGroups_keys_nodup h a)

theorem foldl_addToGroups_mem_mono {α : Type} {key : α → String}
    {k : String} {y : α} (xs : List α) :
    ∀ gs, (∃ g ∈ gs, g.1 = k ∧ y ∈ g.2) →
      ∃ g ∈ xs.foldl (addToGroups key) gs, g.1 = k ∧ y ∈ g.2 := by
  induction xs with
  | nil => intro gs h; exact h
  | cons a as ih => intro gs h; exact ih _ (addToGroups_mem_mono h a)

theorem foldl_addToGroups_mem {α : Type} {key : α → String} {x : α}
    {xs : List α} (hx : x ∈ xs) :
    ∀ gs, ∃ g ∈ xs.foldl (addToGroups key) gs, g.1 = key x ∧ x ∈ g.2 := by
  induction xs with
  | nil => simp at hx
  | cons a as ih =>
      intro gs
      rcases List.mem_cons.mp hx with hx' | hx'
      · subst hx'
        exact foldl_addToGroups_mem_mono as _ (addToGroups_mem_self key gs x)
      · exact ih hx' _

theorem groupByKey_wf {α : Type} (key : α → String) (xs : List α) :
    GroupsWF key (groupByKey key xs) :=
  foldl_addToGroups_wf xs [] (by intro g hg; simp at hg)

theorem groupByKey_keys_nodup {α : Type} (key : α → String) (xs : List α) :
    ((groupByKey key xs).map Prod.fst).Nodup :=
  foldl_addToGroups_nodup xs [] (by simp)

theorem mem_groupByKey {α : Type} {key : α → String} {x : α} {xs : List α}
    (hx : x ∈ xs) : ∃ g ∈ groupByKey key xs, g.1 = key x ∧ x ∈ g.2 :=
  foldl_addToGroups_mem hx []

/-- Two groups with the same key are one and the same group. -/
theorem groupByKey_key_unique {α : Type} {key : α → String} {xs : List α}
    {g1 g2 : String × List α} (h1 : g1 ∈ groupByKey key xs)
    (h2 : g2 ∈ groupByKey key xs) (hk : g1.1 = g2.1) : g1 = g2 :=
  List.inj_on_of_nodup_map (groupByKey_keys_nodup key xs) h1 h2 hk

/- ---------- concrete evaluation helpers ---------- -/

theorem toHexChannel_one : toHexChannel 1 = "FF" := by
  unfold toHexChannel
  rw [show jsRound (1 * 255) = 255 from by unfold jsRound; norm_num]
  decide

theorem toHexChannel_zero : toHexChannel 0 = "00" := by
  unfold toHexChannel
  rw [show jsRound (0 * 255) = 0 from by unfold jsRound; norm_num]
  decide

theorem rgbToHex_red : rgbToHex ⟨1, 0, 0⟩ = "#FF0000" := by
  simp only [rgbToHex, toHexChannel_one, toHexChannel_zero]
  decide

theorem processPaint_nodeA :
    processPaint emptyStyleEnv nodeACore redPaint false = some occA := by
  simp only [processPaint, hasValidColorToken, tierStyleCheck, resolveOccName,
    paintTypeIsGradientString, isGradientPaint, emptyStyleEnv, nodeACore, redPaint,
    rgbToHex_red, occA]
  decide

theorem processPaint_nodeB :
    processPaint emptyStyleEnv nodeBCore redPaint false = some occB := by
  simp only [processPaint, hasValidColorToken, tierStyleCheck, resolveOccName,
    paintTypeIsGradientString, isGradientPaint, emptyStyleEnv, nodeBCore, redPaint,
    rgbToHex_red, occB]
  decide

theorem processPaint_nodeC :
    processPaint emptyStyleEnv nodeCCore redPaint true = some occC := by
  simp only [processPaint, hasValidColorToken, tierStyleCheck, resolveOccName,
    paintTypeIsGradientString, isGradientPaint, emptyStyleEnv, nodeCCore, redPaint,
    rgbToHex_red, occC]
  decide

theorem processPaint_hidden :
    processPaint emptyStyleEnv hiddenCore redPaint false = some occH := by
  simp only [processPaint, hasValidColorToken, tierStyleCheck, resolveOccName,
    paintTypeIsGradientString, isGradientPaint, emptyStyleEnv, hiddenCore, redPaint,
    rgbToHex_red, occH]
  decide

theorem walkColorsList_frame :
    walkColorsList emptyStyleEnv false [frameNode] = [occA, occB, occC] := by
  have hA1 : nodeACore.visible = true := rfl
  have hA2 : nodeACore.fills = some [redPaint] := rfl
  have hA3 : nodeACore.strokes = none := rfl
  have hB1 : nodeBCore.visible = true := rfl
  have hB2 : nodeBCore.fills = some [redPaint] := rfl
  have hB3 : nodeBCore.strokes = none := rfl
  have hC1 : nodeCCore.visible = true := rfl
  have hC2 : nodeCCore.fills = none := rfl
  have hC3 : nodeCCore.strokes = some [redPaint] := rfl
  simp [walkColorsList, walkColors, frameNode, hA1, hA2, hA3, hB1, hB2, hB3,
    hC1, hC2, hC3, processPaint_nodeA, processPaint_nodeB, processPaint_nodeC]

/- ---------- C6 and C7 ---------- -/

/-- **C6.** In the color analysis result, two non-compliant solid occurrences
with the same resolved hex label and the same slot always land in the same
group, and two occurrences with the same hex but different slots never share
a group. -/
theorem analyzeColors_groups_by_hex_and_slot
    (env : StyleEnv) (sh : Bool) (frames : List SNode) (o1 o2 : ColorOcc)
    (h1 : o1 ∈ walkColorsList env sh frames)
    (h2 : o2 ∈ walkColorsList env sh frames)
    (hs1 : o1.paint.ptype = "SOLID") (hs2 : o2.paint.ptype = "SOLID")
    (hlab : o1.label = o2.label) :
    (o1.isStroke = o2.isStroke →
      ∃ g ∈ analyzeColorsGroups env sh frames, o1 ∈ g.2 ∧ o2 ∈ g.2) ∧
    (o1.isStroke ≠ o2.isStroke →
      ∀ g ∈ analyzeColorsGroups env sh frames, ¬(o1 ∈ g.2 ∧ o2 ∈ g.2)) := by
  constructor
  · intro hss
    obtain ⟨g1, hg1, hg1k, hg1m⟩ := @mem_groupByKey ColorOcc colorOccKey o1 _ h1
    obtain ⟨g2, hg2, hg2k, hg2m⟩ := @mem_groupByKey ColorOcc colorOccKey o2 _ h2
    have hkeq : colorOccKey o1 = colorOccKey o2 := by
      unfold colorOccKey
      rw [hlab, hss]
    have heq : g1 = g2 := groupByKey_key_unique hg1 hg2 (by rw [hg1k, hg2k, hkeq])
    subst heq
    refine ⟨(groupLabel g1, g1.2), ?_, hg1m, hg2m⟩
    exact List.mem_map_of_mem _ hg1
  · rintro hss g hg ⟨hm1, hm2⟩
    obtain ⟨g0, hg0, hg0e⟩ := List.mem_map.mp hg
    have h2' : g.2 = g0.2 := by rw [← hg0e]
    rw [h2'] at hm1 hm2
    have k1 := groupByKey_wf colorOccKey (walkColorsList env sh frames) g0 hg0 o1 hm1
    have k2 := groupByKey_wf colorOccKey (walkColorsList env sh frames) g0 hg0 o2 hm2
    have hkeq : colorOccKey o1 = colorOccKey o2 := by rw [k1, k2]
    exact hss (colorOccKey_inj hkeq).1

/-- Witness for C6 on a concrete three-child frame: the two same-slot red
fills share a group, the red fill and the red stroke never do. -/
theorem analyzeColors_groups_by_hex_and_slot_witness :
    (∃ g ∈ analyzeColorsGroups emptyStyleEnv false [frameNode],
        occA ∈ g.2 ∧ occB ∈ g.2) ∧
    (∀ g ∈ analyzeColorsGroups emptyStyleEnv false [frameNode],
        ¬(occA ∈ g.2 ∧ occC ∈ g.2)) := by
  have hmA : occA ∈ walkColorsList emptyStyleEnv false [frameNode] := by
    rw [walkColorsList_frame]; simp
  have hmB : occB ∈ walkColorsList emptyStyleEnv false [frameNode] := by
    rw [walkColorsList_frame]; simp
  have hmC : occC ∈ walkColorsList emptyStyleEnv false [frameNode] := by
    rw [walkColorsList_frame]; simp
  refine ⟨(analyzeColors_groups_by_hex_and_slot emptyStyleEnv false [frameNode]
      occA occB hmA hmB rfl rfl rfl).1 rfl,
    (analyzeColors_groups_by_hex_and_slot emptyStyleEnv false [frameNode]
      occA occC hmA hmC rfl rfl rfl).2 (by decide)⟩

/-- **C7.** With the filter excluding hidden elements, an invisible node's
whole branch contributes nothing to either analysis (its walk is empty, so
no descendant is ever visited); with hidden elements included, a hidden
node's non-compliant fill does surface as an occurrence of a result group. -/
theorem hidden_branch_pruned_or_included (env : StyleEnv) :
    (∀ node : SNode, node.core.visible = false →
      walkColors env false node = [] ∧ walkTypo false node = []) ∧
    (∀ (core : NodeCore) (children : List SNode) (p : Paint) (ps : List Paint)
        (occ : ColorOcc),
      core.visible = false → core.fills = some ps → p ∈ ps →
      processPaint env core p false = some occ →
      occ ∈ walkColors env true (.mk core children) ∧
      ∃ g ∈ analyzeColorsGroups env true [.mk core children], occ ∈ g.2) := by
  constructor
  · rintro ⟨core, children⟩ hv
    simp only [SNode.core] at hv
    constructor
    · simp only [walkColors, hv, Bool.not_false, Bool.not_true, Bool.and_true,
        Bool.and_self, if_true]
    · simp only [walkTypo, hv, Bool.not_false, Bool.not_true, Bool.and_true,
        Bool.and_self, if_true]
  · intro core children p ps occ hv hf hp hpp
    have hmem : occ ∈ walkColors env true (.mk core children) := by
      simp only [walkColors, Bool.not_true, Bool.false_and, Bool.false_eq_true,
        if_false, hf]
      exact List.mem_append_left _ (List.mem_append_left _
        (List.mem_filterMap.mpr ⟨p, hp, hpp⟩))
    refine ⟨hmem, ?_⟩
    have hmem' : occ ∈ walkColorsList env true [.mk core children] := by
      simp only [walkColorsList, List.append_nil]
      exact hmem
    obtain ⟨g0, hg0, _, hg0m⟩ := @mem_groupByKey ColorOcc colorOccKey occ _ hmem'
    exact ⟨(groupLabel g0, g0.2), List.mem_map_of_mem _ hg0, hg0m⟩

/-- Witness for C7 on a concrete hidden red-filled node: pruned when hidden
elements are excluded, surfaced in a group when they are included. -/
theorem hidden_branch_pruned_or_included_witness :
    (walkColors emptyStyleEnv false hiddenNode = [] ∧
      walkTypo false hiddenNode = []) ∧
    (occH ∈ walkColors emptyStyleEnv true hiddenNode ∧
      ∃ g ∈ analyzeColorsGroups emptyStyleEnv true [hiddenNode], occH ∈ g.2) := by
  refine ⟨(hidden_branch_pruned_or_included emptyStyleEnv).1 hiddenNode rfl, ?_⟩
  exact (hidden_branch_pruned_or_included emptyStyleEnv).2 hiddenCore [] redPaint
    [redPaint] occH rfl rfl (by simp) processPaint_hidden

/- ---------- C8: suggestion ranking ---------- -/

theorem dist_inter16 : calculateTextStyleDistance interProfile tokInter16 = 0 := by
  norm_num [calculateTextStyleDistance, interProfile, tokInter16, jsTruthyNum]

theorem dist_inter24 : calculateTextStyleDistance interProfile tokInter24 = 11 := by
  norm_num [calculateTextStyleDistance, interProfile, tokInter24, jsTruthyNum,
    abs_sub_comm]

theorem dist_roboto16 :
    calculateTextStyleDistance interProfile tokRoboto16 = 100 := by
  norm_num [calculateTextStyleDistance, interProfile, tokRoboto16, jsTruthyNum,
    show ¬"Inter" = "Roboto" from by decide]

/-- **C8.** With a current text profile supplied, the suggestion list is a
permutation of the candidates sorted by ascending distance to the profile
(the distance being `calculateTextStyleDistance`), and on the spec's
concrete example the order is exact match, same-family shifted match,
different-family match. -/
theorem typography_suggestions_sorted_by_distance :
    (∀ (cur : TextStyleSource) (toks : List TextStyleTarget),
      List.Sorted
        (fun a b => calculateTextStyleDistance cur a ≤
          calculateTextStyleDistance cur b)
        (sortTokensByDistance cur toks) ∧
      (sortTokensByDistance cur toks).Perm toks) ∧
    calculateTextStyleDistance interProfile tokInter16 = 0 ∧
    calculateTextStyleDistance interProfile tokInter24 = 11 ∧
    calculateTextStyleDistance interProfile tokRoboto16 = 100 ∧
    sortTokensByDistance interProfile [tokRoboto16, tokInter24, tokInter16] =
      [tokInter16, tokInter24, tokRoboto16] := by
  refine ⟨?_, dist_inter16, dist_inter24, dist_roboto16, ?_⟩
  · intro cur toks
    haveI : IsTotal TextStyleTarget
        (fun a b => calculateTextStyleDistance cur a ≤
          calculateTextStyleDistance cur b) := ⟨fun a b => le_total _ _⟩
    haveI : IsTrans TextStyleTarget
        (fun a b => calculateTextStyleDistance cur a ≤
          calculateTextStyleDistance cur b) :=
      ⟨fun _ _ _ hab hbc => le_trans hab hbc⟩
    exact ⟨List.sorted_insertionSort _ toks, List.perm_insertionSort _ toks⟩
  · norm_num [sortTokensByDistance, List.insertionSort, List.orderedInsert,
      dist_inter16, dist_inter24, dist_roboto16]

/- ---------- C2: token-inventory cache ---------- -/

/-- Counterexample to C2 as stated: compute the color inventory on page
`"A"`, then the text inventory on page `"B"` (which overwrites the single
shared page tag), then request the color inventory on page `"B"`: the
cached list computed for page `"A"` is returned without recomputation,
although the claim demands a recomputation (which would yield `["B"]`). -/
theorem tokenCache_stale_across_pages :
    (collectColorCached pageMarkerCompute "B"
      (collectTextCached pageMarkerCompute "B"
        (collectColorCached pageMarkerCompute "A"
          ({} : TokenCacheState String String)).2).2).1 = ["A"] ∧
    pageMarkerCompute "B" = ["B"] ∧ (["A"] : List String) ≠ ["B"] :=
  ⟨rfl, rfl, by decide⟩

/-- **C2 (amended).** Each collector reuses its cached list exactly when its
cache is non-null and the SHARED page tag equals the current page id, and
otherwise recomputes from the current page, overwriting its cache and the
shared tag.  (Because the tag is shared between the two collectors, a match
does not guarantee the cached list was computed for the current page — see
`tokenCache_stale_across_pages`.) -/
theorem tokenCache_memoized_on_shared_tag {α β : Type}
    (cc : String → List α) (tc : String → List β) (p : String)
    (s : TokenCacheState α β) :
    (∀ c, s.cachedColorTokens = some c → s.cachedPageId = some p →
      collectColorCached cc p s = (c, s)) ∧
    (s.cachedPageId ≠ some p →
      collectColorCached cc p s =
        (cc p, { s with cachedColorTokens := some (cc p),
                        cachedPageId := some p })) ∧
    (s.cachedColorTokens = none →
      collectColorCached cc p s =
        (cc p, { s with cachedColorTokens := some (cc p),
                        cachedPageId := some p })) ∧
    (∀ t, s.cachedTextTokens = some t → s.cachedPageId = some p →
      collectTextCached tc p s = (t, s)) ∧
    (s.cachedPageId ≠ some p →
      collectTextCached tc p s =
        (tc p, { s with cachedTextTokens := some (tc p),
                        cachedPageId := some p })) ∧
    (s.cachedTextTokens = none →
      collectTextCached tc p s =
        (tc p, { s with cachedTextTokens := some (tc p),
                        cachedPageId := some p })) := by
  refine ⟨?_, ?_, ?_, ?_, ?_, ?_⟩
  · intro c hc hp
    simp [collectColorCached, hc, hp]
  · intro hp
    cases hc : s.cachedColorTokens <;> simp [collectColorCached, hc, hp]
  · intro hc
    simp [collectColorCached, hc]
  · intro t ht hp
    simp [collectTextCached, ht, hp]
  · intro hp
    cases ht : s.cachedTextTokens <;> simp [collectTextCached, ht, hp]
  · intro ht
    simp [collectTextCached, ht]

/-- Witness for the amended C2 at a concrete state: a same-page repeat
returns the cache unchanged, a different page forces recomputation, and the
first-ever text request computes. -/
theorem tokenCache_memoized_on_shared_tag_witness :
    collectColorCached pageMarkerCompute "A" cacheStateA = (["A"], cacheStateA) ∧
    collectColorCached pageMarkerCompute "B" cacheStateA =
      (["B"], { cacheStateA with cachedColorTokens := some ["B"],
                                 cachedPageId := some "B" }) ∧
    collectTextCached pageMarkerCompute "A" cacheStateA =
      (["A"], { cacheStateA with cachedTextTokens := some ["A"],
                                 cachedPageId := some "A" }) := by
  refine ⟨(tokenCache_memoized_on_shared_tag pageMarkerCompute pageMarkerCompute
      "A" cacheStateA).1 ["A"] rfl rfl, ?_, ?_⟩
  · exact (tokenCache_memoized_on_shared_tag pageMarkerCompute pageMarkerCompute
      "B" cacheStateA).2.1 (by decide)
  · exact (tokenCache_memoized_on_shared_tag pageMarkerCompute pageMarkerCompute
      "A" cacheStateA).2.2.2.2.2 rfl

/- ---------- C3: original-state snapshots ---------- -/

/-- Unfolding `save-original-state` one request id at a time. -/
theorem saveOriginalState_cons (fl : FontNm → Bool)
    (doc : String → Option NodeCore) (a : String) (as : List String)
    (states : String → Option OriginalNodeState) :
    saveOriginalState fl doc states (a :: as) =
      saveOriginalState fl doc
        (match doc a with
         | none => states
         | some node =>
             fun k => if k = a then some (captureOriginalState fl node)
                      else states k) as := rfl

/-- Ids outside the request are untouched by `save-original-state`. -/
theorem saveOriginalState_not_mem (fl : FontNm → Bool)
    (doc : String → Option NodeCore) (nodeIds : List String) :
    ∀ (states : String → Option OriginalNodeState) (k : String),
      k ∉ nodeIds → (saveOriginalState fl doc states nodeIds) k = states k := by
  induction nodeIds with
  | nil => intro states k _; rfl
  | cons a as ih =>
      intro states k hk
      simp only [List.mem_cons, not_or] at hk
      rw [saveOriginalState_cons, ih _ k hk.2]
      cases hda : doc a
      · rfl
      · simp [hda, hk.1]

/-- Counterexample to C3 as stated: saving the same node twice — once
before and once after an edit changed its fill binding — OVERWRITES the
first snapshot (there is no presence check in either handler variant), so
the stored snapshot is not kept unchanged. -/
theorem saveOriginalState_second_save_overwrites :
    (saveOriginalState allFontsLoad docAfterEdit
        (saveOriginalState allFontsLoad docBeforeEdit (fun _ => none) ["N"])
        ["N"]) "N" ≠
      (saveOriginalState allFontsLoad docBeforeEdit (fun _ => none) ["N"]) "N" := by
  decide

/-- **C3 (amended).** The session map keyed by node id holds at most one
snapshot per node by construction, but `save-original-state` is
last-write-wins, not first-write-wins: a save request for a node that
resolves stores the node's state AT THE TIME OF THAT REQUEST, overwriting
any earlier snapshot; ids outside the request keep their entries. -/
theorem saveOriginalState_last_write_wins (fl : FontNm → Bool)
    (doc : String → Option NodeCore) (nodeIds : List String)
    (nid : String) (node : NodeCore)
    (hdoc : doc nid = some node) (hmem : nid ∈ nodeIds) :
    (∀ states, (saveOriginalState fl doc states nodeIds) nid =
      some (captureOriginalState fl node)) ∧
    (∀ states k, k ∉ nodeIds →
      (saveOriginalState fl doc states nodeIds) k = states k) := by
  refine ⟨?_, fun states k hk => saveOriginalState_not_mem fl doc nodeIds states k hk⟩
  induction nodeIds with
  | nil => simp at hmem
  | cons a as ih =>
      intro states
      rw [saveOriginalState_cons]
      rcases List.mem_cons.mp hmem with h | h
      · subst h
        by_cases hmem2 : nid ∈ as
        · exact ih hmem2 _
        · rw [saveOriginalState_not_mem fl doc as _ nid hmem2]
          simp [hdoc]
      · exact ih h _

/-- Witness for the amended C3: the second save stores the edited state. -/
theorem saveOriginalState_last_write_wins_witness :
    (saveOriginalState allFontsLoad docAfterEdit
        (saveOriginalState allFontsLoad docBeforeEdit (fun _ => none) ["N"])
        ["N"]) "N" = some (captureOriginalState allFontsLoad nodeAfterEdit) ∧
    (saveOriginalState allFontsLoad docBeforeEdit (fun _ => none) ["N"]) "X" =
      none :=
  ⟨(saveOriginalState_last_write_wins allFontsLoad docAfterEdit ["N"] "N"
      nodeAfterEdit rfl (by decide)).1 _,
   (saveOriginalState_last_write_wins allFontsLoad docBeforeEdit ["N"] "N"
      nodeBeforeEdit rfl (by decide)).2 _ "X" (by decide)⟩

/- ---------- C4: selection-change suppression ---------- -/

/-- Counterexample to C4 as stated for the evolved handler: an event
arriving while the flag is set is swallowed, but the flag is NOT cleared by
that event, so the next event is also swallowed instead of being processed
normally (normal processing would post messages). -/
theorem selectionchange_flag_not_cleared :
    (handleSelectionChangeV2 normalProcessing ⟨true, []⟩).1.ignoringSelectionChange
        = true ∧
    (handleSelectionChangeV2 normalProcessing
      (handleSelectionChangeV2 normalProcessing ⟨true, []⟩).1).2 = [] ∧
    (normalProcessing ⟨true, []⟩).2 ≠ [] :=
  ⟨rfl, rfl, by decide⟩

/-- **C4 (amended).** While the suppression flag is set, the evolved
handler swallows every selection-change event — no analysis, no messages,
and no state change at all, the flag included (it is cleared separately by
the command that set it, after its delay); with the flag clear, events are
processed normally.  In the first variant the swallowed event does clear
the flag itself, so there the suppression is one-shot. -/
theorem selectionchange_suppression_semantics
    (normal : SelState → SelState × List UIMsg) (s : SelState) :
    (s.ignoringSelectionChange = true →
      handleSelectionChangeV2 normal s = (s, [])) ∧
    (s.ignoringSelectionChange = false →
      handleSelectionChangeV2 normal s = normal s) ∧
    (s.ignoringSelectionChange = true →
      handleSelectionChangeV1 normal s =
        ({ s with ignoringSelectionChange := false }, []) ∧
      (handleSelectionChangeV1 normal s).1.ignoringSelectionChange = false) ∧
    (s.ignoringSelectionChange = false →
      handleSelectionChangeV1 normal s = normal s) := by
  refine ⟨?_, ?_, ?_, ?_⟩
  · intro h; simp [handleSelectionChangeV2, h]
  · intro h; simp [handleSelectionChangeV2, h]
  · intro h; simp [handleSelectionChangeV1, h]
  · intro h; simp [handleSelectionChangeV1, h]

/-- Witness for the amended C4 at a concrete suppressed state. -/
theorem selectionchange_suppression_semantics_witness :
    handleSelectionChangeV2 normalProcessing ⟨true, []⟩ = (⟨true, []⟩, []) ∧
    handleSelectionChangeV2 normalProcessing ⟨false, []⟩ =
      normalProcessing ⟨false, []⟩ ∧
    handleSelectionChangeV1 normalProcessing ⟨true, []⟩ = (⟨false, []⟩, []) :=
  ⟨(selectionchange_suppression_semantics normalProcessing ⟨true, []⟩).1 rfl,
   (selectionchange_suppression_semantics normalProcessing ⟨false, []⟩).2.1 rfl,
   ((selectionchange_suppression_semantics normalProcessing ⟨true, []⟩).2.2.1
      rfl).1⟩

/- ---------- C5: zero-found fallback ---------- -/

theorem setAdd_mem_self (s : List String) (x : String) : x ∈ setAdd s x := by
  unfold setAdd
  split
  · assumption
  · simp

theorem setAdd_mem_mono {s : List String} {y : String} (h : y ∈ s)
    (x : String) : y ∈ setAdd s x := by
  unfold setAdd
  split
  · exact h
  · exact List.mem_append_left _ h

theorem foldl_setAdd_mem_mono {y : String}
    (locals : List (String × FigStyle)) :
    ∀ acc, y ∈ acc → y ∈ locals.foldl (fun acc st => setAdd acc st.1) acc := by
  induction locals with
  | nil => intro acc h; exact h
  | cons a as ih => intro acc h; exact ih _ (setAdd_mem_mono h _)

theorem foldl_setAdd_ids_mem {locals : List (String × FigStyle)}
    {sid : String} {style : FigStyle} (h : (sid, style) ∈ locals) :
    ∀ acc, sid ∈ locals.foldl (fun acc st => setAdd acc st.1) acc := by
  induction locals with
  | nil => simp at h
  | cons a as ih =>
      intro acc
      rcases List.mem_cons.mp h with h' | h'
      · rw [← h']
        exact foldl_setAdd_mem_mono as _ (setAdd_mem_self acc sid)
      · exact ih h' _

theorem assocSet_ne_nil {α : Type} (m : List (String × α)) (k : String)
    (v : α) : assocSet m k v ≠ [] := by
  unfold assocSet
  split
  · rename_i h
    cases m with
    | nil => simp [assocHas] at h
    | cons a as => simp
  · simp

theorem addTextTokensStep_resolved {env : StyleEnv} {fl : FontNm → Bool}
    {sid : String} {style : FigStyle} {fn : FontNm}
    (henv : env sid = some style) (ht : style.stype = "TEXT")
    (hf : style.fontName = some fn) (hl : fl fn = true)
    (ts : List (String × TextToken)) :
    addTextTokensStep env fl ts sid =
      assocSet ts (style.name ++ "_" ++ sid)
        ⟨style.name, sid, some fn.family, some fn.style, style.fontSize⟩ := by
  simp [addTextTokensStep, henv, ht, hf, hl]

theorem addTextTokensStep_ne_nil {env : StyleEnv} {fl : FontNm → Bool}
    {ts : List (String × TextToken)} (h : ts ≠ []) (sid : String) :
    addTextTokensStep env fl ts sid ≠ [] := by
  unfold addTextTokensStep
  cases henv : env sid with
  | none => exact h
  | some style =>
      by_cases ht : (style.stype == "TEXT") = true
      · simp only [ht, if_true]
        cases hfn : style.fontName with
        | none => exact h
        | some fn =>
            by_cases hl : fl fn = true
            · simp only [hl, if_true]
              exact assocSet_ne_nil _ _ _
            · simp only [hl, if_false]
              exact h
      · simp only [ht, if_false]
        exact h

theorem addTextTokens_cons (env : StyleEnv) (fl : FontNm → Bool)
    (a : String) (as : List String) (ts : List (String × TextToken)) :
    addTextTokens env fl (a :: as) ts =
      addTextTokens env fl as (addTextTokensStep env fl ts a) := rfl

theorem addTextTokens_ne_nil_mono (env : StyleEnv) (fl : FontNm → Bool)
    (ids : List String) :
    ∀ ts, ts ≠ [] → addTextTokens env fl ids ts ≠ [] := by
  induction ids with
  | nil => intro ts h; exact h
  | cons a as ih =>
      intro ts h
      rw [addTextTokens_cons]
      exact ih _ (addTextTokensStep_ne_nil h a)

theorem addTextTokens_ne_nil_of_resolved {env : StyleEnv} {fl : FontNm → Bool}
    {sid : String} {style : FigStyle} {fn : FontNm}
    (henv : env sid = some style) (ht : style.stype = "TEXT")
    (hf : style.fontName = some fn) (hl : fl fn = true)
    {ids : List String} (hmem : sid ∈ ids) :
    ∀ ts, addTextTokens env fl ids ts ≠ [] := by
  induction ids with
  | nil => simp at hmem
  | cons a as ih =>
      intro ts
      rw [addTextTokens_cons]
      rcases List.mem_cons.mp hmem with h' | h'
      · subst h'
        apply addTextTokens_ne_nil_mono
        rw [addTextTokensStep_resolved henv ht hf hl]
        exact assocSet_ne_nil _ _ _
      · exact ih h' _

/-- Counterexample to C5 as stated: on a page with zero applied style
identifiers, the evolved COLOR collector returns the empty list even though
a locally defined, resolvable paint style exists — it has no fallback to
local styles (only the typography collector does). -/
theorem color_collector_no_local_fallback :
    collectAppliedColorTokensCompute paintStyleEnvFix (fun _ => none) [] = [] ∧
    localPaintStylesFix ≠ [] ∧
    paintStyleEnvFix "S1" = some localRedStyle := by
  refine ⟨?_, by decide, rfl⟩
  simp [collectAppliedColorTokensCompute, collectColorAccList, addStyleTokens]

/-- **C5 (amended).** Only the typography collector has the zero-found
fallback: when the page walk finds no applied text-style ids, it enumerates
all locally defined text styles as candidates (non-empty whenever one of
them resolves to a TEXT style whose font loads).  The evolved color
collector has no such fallback and returns the empty list whenever its page
scan finds nothing, local paint styles notwithstanding. -/
theorem text_fallback_vs_color_no_fallback
    (styleEnv : StyleEnv) (varEnv : VarEnv) (fontLoads : FontNm → Bool)
    (locals : List (String × FigStyle)) (page : List SNode)
    (hempty : collectTextIdsList page [] = []) :
    collectAppliedTextTokensCompute styleEnv fontLoads locals page none =
      (addTextTokens styleEnv fontLoads
        (locals.foldl (fun acc st => setAdd acc st.1) []) []).map Prod.snd ∧
    (∀ sid style fn, (sid, style) ∈ locals → styleEnv sid = some style →
      style.stype = "TEXT" → style.fontName = some fn → fontLoads fn = true →
      collectAppliedTextTokensCompute styleEnv fontLoads locals page none ≠ []) ∧
    collectAppliedColorTokensCompute styleEnv varEnv [] = [] := by
  have hmain :
      collectAppliedTextTokensCompute styleEnv fontLoads locals page none =
        (addTextTokens styleEnv fontLoads
          (locals.foldl (fun acc st => setAdd acc st.1) []) []).map Prod.snd := by
    simp [collectAppliedTextTokensCompute, hempty]
  refine ⟨hmain, ?_, ?_⟩
  · intro sid style fn hmem henv ht hf hl
    rw [hmain]
    intro hnil
    exact addTextTokens_ne_nil_of_resolved henv ht hf hl
      (foldl_setAdd_ids_mem hmem []) [] (List.map_eq_nil_iff.mp hnil)
  · simp [collectAppliedColorTokensCompute, collectColorAccList, addStyleTokens]

/-- Witness for the amended C5 on a concrete empty page with one local text
style and one local paint style. -/
theorem text_fallback_vs_color_no_fallback_witness :
    collectAppliedTextTokensCompute textStyleEnvFix allFontsLoad
        localTextStylesFix [] none =
      (addTextTokens textStyleEnvFix allFontsLoad
        (localTextStylesFix.foldl (fun acc st => setAdd acc st.1) [])
        []).map Prod.snd ∧
    collectAppliedTextTokensCompute textStyleEnvFix allFontsLoad
      localTextStylesFix [] none ≠ [] ∧
    collectAppliedColorTokensCompute textStyleEnvFix (fun _ => none) [] = [] := by
  have hempty : collectTextIdsList [] [] = [] := by simp [collectTextIdsList]
  have h := text_fallback_vs_color_no_fallback textStyleEnvFix (fun _ => none)
    allFontsLoad localTextStylesFix [] hempty
  exact ⟨h.1,
    h.2.1 "T1" localTextStyleFix ⟨"Inter", "Regular"⟩
      (show ("T1", localTextStyleFix) ∈ [("T1", localTextStyleFix)] from
        List.mem_singleton_self _)
      rfl rfl rfl rfl,
    h.2.2⟩

/- ---------- C9: variable apply touches only index 0 ---------- -/

theorem jsMapIndexedFrom_id_of_pos (g : Paint → Paint) (rest : List Paint) :
    ∀ i, i ≠ 0 →
      jsMapIndexedFrom (fun j q => if j = 0 then g q else q) i rest = rest := by
  induction rest with
  | nil => intro i _; rfl
  | cons q qs ih =>
      intro i hi
      simp only [jsMapIndexedFrom, if_neg hi]
      rw [ih (i + 1) (Nat.succ_ne_zero i)]

theorem jsMapIndexed_cons (g : Paint → Paint) (p : Paint) (rest : List Paint) :
    jsMapIndexed (fun i q => if i = 0 then g q else q) (p :: rest) =
      g p :: rest := by
  simp only [jsMapIndexed, jsMapIndexedFrom]
  rw [jsMapIndexedFrom_id_of_pos g rest 1 (Nat.succ_ne_zero 0)]
  simp

/-- Once a key holds a node the per-node rewrite leaves unchanged, the
whole apply fold leaves that key unchanged. -/
theorem applyFold_fixed_node (varId varName : String) (isStroke : Bool)
    {nid : String} {node : NodeCore}
    (hfix : applyColorVariableToNode varId isStroke node = node)
    (ids : List String) :
    ∀ st : (String → Option NodeCore) × List UIMsg, st.1 nid = some node →
      (ids.foldl (applyTokenVariableStep varId varName isStroke) st).1 nid =
        some node := by
  induction ids with
  | nil => intro st h; exact h
  | cons a as ih =>
      intro st h
      simp only [List.foldl_cons]
      apply ih
      unfold applyTokenVariableStep
      cases hsa : st.1 a with
      | none => exact h
      | some nodeA =>
          dsimp only
          by_cases hk : nid = a
          · subst hk
            rw [h] at hsa
            injection hsa with he
            subst he
            simp [hfix]
          · simp [hk, h]

/-- **C9.** Applying a token that resolved to a color variable rewrites only
the paint at index 0 of the relevant paint list (the tail is returned
verbatim and the other slot is untouched); a node whose relevant list is
empty or absent is left entirely unchanged; and `token-applied-success` is
posted for the batch regardless. -/
theorem applyVariable_rewrites_first_paint_only
    (varId varName : String) (doc : String → Option NodeCore)
    (nodeIds : List String) (nid : String) (node : NodeCore) :
    (∀ p rest, node.fills = some (p :: rest) →
      (applyColorVariableToNode varId false node).fills =
        some (setBoundVariableForPaint p varId :: rest) ∧
      (applyColorVariableToNode varId false node).strokes = node.strokes) ∧
    (node.fills = some [] → applyColorVariableToNode varId false node = node) ∧
    (node.fills = none → applyColorVariableToNode varId false node = node) ∧
    (∀ p rest, node.strokes = some (p :: rest) →
      (applyColorVariableToNode varId true node).strokes =
        some (setBoundVariableForPaint p varId :: rest) ∧
      (applyColorVariableToNode varId true node).fills = node.fills) ∧
    (node.strokes = some [] → applyColorVariableToNode varId true node = node) ∧
    (node.strokes = none → applyColorVariableToNode varId true node = node) ∧
    (doc nid = some node → node.fills = some [] →
      (applyTokenVariableBatch varId varName false doc nodeIds).1 nid =
        some node) ∧
    UIMsg.tokenAppliedSuccess (removeTokenCategory varName) varId ∈
      (applyTokenVariableBatch varId varName false doc nodeIds).2 := by
  have hempty : node.fills = some [] →
      applyColorVariableToNode varId false node = node := by
    intro h
    simp [applyColorVariableToNode, h]
  refine ⟨?_, hempty, ?_, ?_, ?_, ?_, ?_, ?_⟩
  · intro p rest h
    constructor
    · simp [applyColorVariableToNode, h, jsMapIndexed_cons]
    · simp [applyColorVariableToNode, h]
  · intro h
    simp [applyColorVariableToNode, h]
  · intro p rest h
    constructor
    · simp [applyColorVariableToNode, h, jsMapIndexed_cons]
    · simp [applyColorVariableToNode, h]
  · intro h
    simp [applyColorVariableToNode, h]
  · intro h
    simp [applyColorVariableToNode, h]
  · intro hdoc hfills
    unfold applyTokenVariableBatch
    exact applyFold_fixed_node varId varName false (hempty hfills) nodeIds
      (doc, []) hdoc
  · unfold applyTokenVariableBatch
    exact List.mem_append_right _ (List.mem_singleton_self _)

/-- Witness for C9 on concrete nodes: a two-paint fill list gets its head
rebound and its tail kept, an empty-fill node survives the batch unchanged,
and the batch still posts success. -/
theorem applyVariable_rewrites_first_paint_only_witness :
    ((applyColorVariableToNode "V1" false nodeTwoPaints).fills =
      some (setBoundVariableForPaint redPaint "V1" :: [blackPaint]) ∧
     (applyColorVariableToNode "V1" false nodeTwoPaints).strokes =
      nodeTwoPaints.strokes) ∧
    (applyTokenVariableBatch "V1" "Brand Colors/Primary" false docApply
      ["E"]).1 "E" = some nodeEmptyFills ∧
    UIMsg.tokenAppliedSuccess (removeTokenCategory "Brand Colors/Primary") "V1" ∈
      (applyTokenVariableBatch "V1" "Brand Colors/Primary" false docApply
        ["E"]).2 := by
  refine ⟨(applyVariable_rewrites_first_paint_only "V1" "Brand Colors/Primary"
      docApply ["E"] "E" nodeTwoPaints).1 redPaint [blackPaint] rfl, ?_, ?_⟩
  · exact (applyVariable_rewrites_first_paint_only "V1" "Brand Colors/Primary"
      docApply ["E"] "E" nodeEmptyFills).2.2.2.2.2.2.1 rfl rfl
  · exact (applyVariable_rewrites_first_paint_only "V1" "Brand Colors/Primary"
      docApply ["E"] "E" nodeEmptyFills).2.2.2.2.2.2.2

/- ---------- C10: remove-text-token skips unbound nodes ---------- -/

/-- A key holding a guarded (empty-or-absent binding) text node is left
unchanged by the whole removal fold. -/
theorem removeFold_fixed_node (restore : String → NodeCore → NodeCore)
    {nid : String} {node : NodeCore} (htext : node.ntype = "TEXT")
    (hguard : textBindingEmptyOrAbsent node = true) (ids : List String) :
    ∀ d : String → Option NodeCore, d nid = some node →
      (ids.foldl (removeTextTokenStep restore) d) nid = some node := by
  induction ids with
  | nil => intro d h; exact h
  | cons a as ih =>
      intro d h
      simp only [List.foldl_cons]
      apply ih
      unfold removeTextTokenStep
      cases hda : d a with
      | none => exact h
      | some nodeA =>
          dsimp only
          by_cases hk : nid = a
          · subst hk
            rw [h] at hda
            injection hda with he
            subst he
            simp [htext, hguard, h]
          · by_cases ht2 : (nodeA.ntype == "TEXT") = true
            · simp only [ht2, if_true]
              by_cases hg2 : textBindingEmptyOrAbsent nodeA = true
              · simp [hg2, h]
              · simp [hg2, hk, h]
            · simp [ht2, h]

/-- **C10.** A text node whose text-style binding is empty or absent when
`remove-text-token` runs is skipped entirely — every field it has is left
unchanged — and the handler still posts `token-removed-success` for the
batch. -/
theorem removeTextToken_skips_unbound
    (restore : String → NodeCore → NodeCore) (doc : String → Option NodeCore)
    (nodeIds : List String) (nid : String) (node : NodeCore)
    (hdoc : doc nid = some node) (htext : node.ntype = "TEXT")
    (hguard : textBindingEmptyOrAbsent node = true) :
    (removeTextTokenBatch restore doc nodeIds).1 nid = some node ∧
    (removeTextTokenBatch restore doc nodeIds).2 =
      [UIMsg.tokenRemovedSuccess] := by
  constructor
  · unfold removeTextTokenBatch
    exact removeFold_fixed_node restore htext hguard nodeIds doc hdoc
  · rfl

/-- Witness for C10 on a concrete empty-binding text node. -/
theorem removeTextToken_skips_unbound_witness :
    (removeTextTokenBatch restoreFix docRemove ["T"]).1 "T" =
      some emptyBindingTextNode ∧
    (removeTextTokenBatch restoreFix docRemove ["T"]).2 =
      [UIMsg.tokenRemovedSuccess] :=
  removeTextToken_skips_unbound restoreFix docRemove ["T"] "T"
    emptyBindingTextNode rfl rfl rfl
